import Mathlib

/-!
Shallow embedding of the Gen-Blender scene-graph-to-mesh export pipeline
(`src/App.tsx`: `handleExport` / `addGeometry`; `src/unnamed/part_000`:
data model; `src/unnamed/part_001`: `generateSceneFromPrompt`).

Numeric scalars are modelled generically over a `Field` (instantiated at `ℝ`
with `Real.cos`/`Real.sin` for trigonometric claims and at `ℚ` for executable
witnesses).  The JavaScript `Math.cos`/`Math.sin` pair is passed as explicit
function parameters `c`/`s`, and the decimal formatter `toFixed(4)` is
abstracted as a string-formatter parameter `fmt : α → String`; every
serialization theorem is proved for all such parameters, hence in particular
for the concrete IEEE-754 instantiation.
-/

namespace GenBlender

/-- The closed `GeometryType` enumeration of `src/unnamed/part_000`. -/
inductive GeometryType where
  | box | sphere | cylinder | cone | torus
  | icosahedron | dodecahedron | tetrahedron
  | extrusion | wedge
  | plane
  | wall | roof | floor | window | pillar | stairs
  | tree_complex
  deriving DecidableEq, Repr

/-- `PBRMaterial` record of `src/unnamed/part_000`. -/
structure PBRMaterial (α : Type) where
  color : String
  roughness : α
  metalness : α
  opacity : Option α
  transparent : Option Bool
  emissive : Option String
  emissiveIntensity : Option α
  wireframe : Option Bool

/-- `SceneNode` record of `src/unnamed/part_000`. -/
structure SceneNode (α : Type) where
  id : String
  name : String
  group : String
  type : GeometryType
  position : α × α × α
  rotation : α × α × α
  scale : α × α × α
  segments : Option ℕ
  material : PBRMaterial α
  shapePath : Option (List (α × α))

/-- `SceneData` record of `src/unnamed/part_000` (the environment enumeration
is kept as its string value). -/
structure SceneData (α : Type) where
  nodes : List (SceneNode α)
  environment : String
  ambientLightIntensity : α

section Geometry

variable {α : Type} [Field α]

/-- The cube branch of `addGeometry`'s initial vertex list `v`
(`App.tsx` lines 110–113). -/
def cubeVerts : List (α × α × α) :=
  [(-1, -1, 1), (1, -1, 1), (-1, 1, 1), (1, 1, 1),
   (-1, -1, -1), (1, -1, -1), (-1, 1, -1), (1, 1, -1)]

/-- The quad vertex list substituted for `v` when the node type is `plane`
or `window` (`App.tsx` line 116). -/
def quadVerts : List (α × α × α) :=
  [(-1, -1, 0), (1, -1, 0), (-1, 1, 0), (1, 1, 0)]

/-- The condition of `App.tsx` line 115:
`node.type === GeometryType.PLANE || node.type === GeometryType.WINDOW`. -/
def isQuadType (t : GeometryType) : Bool :=
  t == GeometryType.plane || t == GeometryType.window

/-- Local-space vertex list chosen by `addGeometry` (`App.tsx` 110–117). -/
def localVerts (t : GeometryType) : List (α × α × α) :=
  if isQuadType t then quadVerts else cubeVerts

/-- The axis-wise scaling step `p => [p[0]*scl[0]*0.5, p[1]*scl[1]*0.5,
p[2]*scl[2]*0.5]` (`App.tsx` line 119). -/
def scaleHalfPt (scl p : α × α × α) : α × α × α :=
  (p.1 * scl.1 * 0.5, p.2.1 * scl.2.1 * 0.5, p.2.2 * scl.2.2 * 0.5)

/-- The rotation step of `addGeometry` (`App.tsx` lines 121–131): the body of
the `v.map` with the sequential reassignments of `x`, `y`, `z` made explicit
through `let`-bindings. -/
def rotatePoint (c s : α → α) (rot p : α × α × α) : α × α × α :=
  let cx := c rot.1; let sx := s rot.1
  let cy := c rot.2.1; let sy := s rot.2.1
  let cz := c rot.2.2; let sz := s rot.2.2
  let x := p.1; let y := p.2.1; let z := p.2.2
  let y1 := y * cx - z * sx; let z1 := y * sx + z * cx
  let x1 := x * cy + z1 * sy; let z2 := -(x * sy) + z1 * cy
  let x2 := x1 * cz - y1 * sz; let y2 := x1 * sz + y1 * cz
  (x2, y2, z2)

/-- The translation step `p => [p[0]+pos[0], p[1]+pos[1], p[2]+pos[2]]`
(`App.tsx` line 133). -/
def translatePt (pos p : α × α × α) : α × α × α :=
  (p.1 + pos.1, p.2.1 + pos.2.1, p.2.2 + pos.2.2)

/-- World-space vertex list produced by `addGeometry` (`App.tsx` 110–133):
the chosen local vertex list put through the three successive `v.map` steps. -/
def addGeometryWorldVerts (c s : α → α) (n : SceneNode α) : List (α × α × α) :=
  (((localVerts n.type).map (scaleHalfPt n.scale)).map
      (rotatePoint c s n.rotation)).map (translatePt n.position)

/-- Elementary rotation about the X axis by angle `a` (spec §4.1 step 2,
first elementary rotation). -/
def rotXPt (c s : α → α) (a : α) (p : α × α × α) : α × α × α :=
  (p.1, p.2.1 * c a - p.2.2 * s a, p.2.1 * s a + p.2.2 * c a)

/-- Elementary rotation about the Y axis by angle `a` (spec §4.1 step 2,
second elementary rotation). -/
def rotYPt (c s : α → α) (a : α) (p : α × α × α) : α × α × α :=
  (p.1 * c a + p.2.2 * s a, p.2.1, -(p.1 * s a) + p.2.2 * c a)

/-- Elementary rotation about the Z axis by angle `a` (spec §4.1 step 2,
third elementary rotation). -/
def rotZPt (c s : α → α) (a : α) (p : α × α × α) : α × α × α :=
  (p.1 * c a - p.2.1 * s a, p.1 * s a + p.2.1 * c a, p.2.2)

end Geometry

section Serialization

variable {α : Type} [Field α]

/-- The JavaScript `String.prototype.replace` with the one-character string
pattern `'#'`: replace the first occurrence of `'#'` (if any) by `rep`,
working over the character list. -/
def replaceFirstHashAux (rep : List Char) : List Char → List Char
  | [] => []
  | ch :: cs => if ch = '#' then rep ++ cs else ch :: replaceFirstHashAux rep cs

/-- `color.replace('#', rep)` from `App.tsx` line 105 (JS `replace` with a
string pattern substitutes only the first occurrence, wherever it is). -/
def replaceFirstHash (str rep : String) : String :=
  ⟨replaceFirstHashAux rep.data str.data⟩

/-- The material-reference line
`usemtl ${node.material.color.replace('#', 'Mat_')}\n` (`App.tsx` line 105). -/
def usemtlLine (n : SceneNode α) : String :=
  "usemtl " ++ replaceFirstHash n.material.color "Mat_" ++ "\n"

/-- One face line `f i1 i2 i3 i4\n` (`App.tsx` lines 141 and 148; both the
quad branch's interpolation and the cube branch's `f.join(' ')` produce this
shape). -/
def faceLine (ixs : List ℕ) : String :=
  "f " ++ String.intercalate " " (ixs.map toString) ++ "\n"

/-- The face index lists emitted for a vertex block starting at running
offset `o`: one quad when the block holds 4 vertices, the six fixed cube
faces otherwise (`App.tsx` lines 139–150). -/
def faceIndexLists (o len : ℕ) : List (List ℕ) :=
  if len = 4 then
    [[o, o + 1, o + 3, o + 2]]
  else
    [[o, o + 1, o + 3, o + 2], [o + 2, o + 3, o + 7, o + 6],
     [o + 6, o + 7, o + 5, o + 4], [o + 4, o + 5, o + 1, o + 0],
     [o + 2, o + 6, o + 4, o + 0], [o + 7, o + 3, o + 1, o + 5]]

/-- The per-node text block appended to `objOutput` by the loop body of
`App.tsx` lines 103–153 (`o` line, `usemtl` line, vertex lines, face lines,
trailing blank line), paired with the updated `vertexOffset`. -/
def nodeBlock (c s : α → α) (fmt : α → String) (n : SceneNode α)
    (idx off : ℕ) : String × ℕ :=
  let v := addGeometryWorldVerts c s n
  let head := "o " ++ n.name ++ "_" ++ toString idx ++ "\n" ++ usemtlLine n
  let vtxt := String.join (v.map (fun p =>
    "v " ++ fmt p.1 ++ " " ++ fmt p.2.1 ++ " " ++ fmt p.2.2 ++ "\n"))
  let ftxt := String.join ((faceIndexLists off v.length).map faceLine)
  let off' := if v.length = 4 then off + 4 else off + 8
  (head ++ vtxt ++ ftxt ++ "\n", off')

/-- The `groupedNodes[groupName].forEach((node, idx) => ...)` loop of
`App.tsx` lines 103–154: concatenates the per-node blocks, threading the
node index and the running `vertexOffset`; returns the accumulated text and
the final offset. -/
def emitNodes (c s : α → α) (fmt : α → String) :
    List (SceneNode α) → ℕ → ℕ → String × ℕ
  | [], _, off => ("", off)
  | n :: ns, idx, off =>
    let r := nodeBlock c s fmt n idx off
    let rest := emitNodes c s fmt ns (idx + 1) r.2
    (r.1 ++ rest.1, rest.2)

/-- The document built for one group (`App.tsx` lines 100–154): the two-line
header comment, then the per-node blocks with `vertexOffset` starting at 1
and the per-group node index starting at 0. -/
def groupDoc (c s : α → α) (fmt : α → String) (groupName : String)
    (nodes : List (SceneNode α)) : String :=
  "# Group: " ++ groupName ++ "\n# Exported from Gen-Blender Pro\n\n" ++
    (emitNodes c s fmt nodes 0 1).1

/-- `node.group || 'Ungrouped'` (`App.tsx` lines 85 and 91): the empty string
is the only falsy string value. -/
def normGroup (g : String) : String :=
  if g = "" then "Ungrouped" else g

/-- `nodesToExport` of `App.tsx` lines 84–86: `targetGroup` is
`string | undefined`, and a truthy (present, non-empty) value selects the
filter branch. -/
def nodesToExport (nodes : List (SceneNode α)) (targetGroup : Option String) :
    List (SceneNode α) :=
  match targetGroup with
  | none => nodes
  | some g => if g = "" then nodes
              else nodes.filter (fun n => normGroup n.group == g)

/-- The insertion-ordered key set of the `groupedNodes` record built by
`App.tsx` lines 90–94 (JS objects preserve string-key insertion order, so
`Object.keys` yields first-encounter order). -/
def groupKeys (nodes : List (SceneNode α)) : List String :=
  nodes.foldl
    (fun ks n => if normGroup n.group ∈ ks then ks else ks ++ [normGroup n.group])
    []

/-- `handleExport` of `App.tsx` lines 80–165, up to the archive boundary:
`none` models the early `return` on an empty node list (no document, no
archive, no download); otherwise the ordered association list from group
name to the group's document text, as handed to the JSZip collaborator. -/
def handleExport (c s : α → α) (fmt : α → String) (nodes : List (SceneNode α))
    (targetGroup : Option String) : Option (List (String × String)) :=
  let ns := nodesToExport nodes targetGroup
  if ns.length = 0 then none
  else
    some ((groupKeys ns).map (fun g =>
      (g, groupDoc c s fmt g (ns.filter (fun n => normGroup n.group == g)))))

/-- The document the export produces for group `g` (if any): `lookup` into
the association list returned by `handleExport`. -/
def docFor (c s : α → α) (fmt : α → String) (nodes : List (SceneNode α))
    (targetGroup : Option String) (g : String) : Option String :=
  match handleExport c s fmt nodes targetGroup with
  | none => none
  | some docs => docs.lookup g

end Serialization

section Ingestion

variable {α : Type} [Field α]

/-- The observable shape of one remote-generation round trip
(`src/unnamed/part_001`, `generateSceneFromPrompt` lines 102–126):
`absent` models a missing/empty `response.text` (the `Empty response` throw),
`unparseable` models a payload on which the brace-extraction plus
`JSON.parse` step throws, and `parsed` models a successfully parsed object
whose `nodes` field may be missing (`none`) — in which case
`data.nodes.map` throws a `TypeError` at line 123. -/
inductive GenPayload (α : Type) where
  | absent
  | unparseable
  | parsed (nodes : Option (List (SceneNode α))) (aiReasoning : Option String)
      (environment : String) (ambientLightIntensity : α)

/-- The value of `generateSceneFromPrompt`: the conversational text plus the
optional scene data. -/
structure GenResponse (α : Type) where
  text : String
  data : Option (SceneData α)

/-- JS `a || b` for a string `a` wrapped in an optionality marker: absent or
empty is falsy. -/
def jsOrElse (a : Option String) (b : String) : String :=
  match a with
  | none => b
  | some str => if str = "" then b else str

/-- The user-facing failure text of the `catch` branch of
`generateSceneFromPrompt` (`src/unnamed/part_001` line 135). -/
def coreErrorText : String := "Ошибка вычислений. Попробуйте упростить задачу."

/-- `generateSceneFromPrompt` (`src/unnamed/part_001` lines 98–137) over the
observable payload shape.  Every throwing path (missing text, parse failure,
missing `nodes` array) lands in the `catch` branch, which returns the fixed
failure text and no data.  `suffix i` stands for the `Math.random()`-derived
id suffix drawn for the `i`-th node. -/
def generateSceneFromPrompt (suffix : ℕ → String) :
    GenPayload α → GenResponse α
  | .absent => ⟨coreErrorText, none⟩
  | .unparseable => ⟨coreErrorText, none⟩
  | .parsed none _ _ _ => ⟨coreErrorText, none⟩
  | .parsed (some ns) aiReasoning environment ambient =>
    let nodesWithIds := ns.mapIdx (fun i n =>
      { n with id := n.name ++ "_" ++ suffix i })
    ⟨jsOrElse aiReasoning "Architecture calculated.",
      some ⟨nodesWithIds, environment, ambient⟩⟩

/-- The scene/state effect of `handleSendMessage` (`App.tsx` lines 189–196):
`setSceneData` runs only when `response.data` is present; the reply text is
`response.text || "Сцена обновлена."` on success and `response.text`
otherwise.  Returns the resulting scene and the appended reply text. -/
def handleSendMessageUpdate (scene : SceneData α) (resp : GenResponse α) :
    SceneData α × String :=
  match resp.data with
  | some d => (d, if resp.text = "" then "Сцена обновлена." else resp.text)
  | none => (scene, resp.text)

end Ingestion

section Winding

variable {α : Type} [LinearOrderedField α]

/-- Componentwise difference of two points. -/
def sub3 (u v : α × α × α) : α × α × α :=
  (u.1 - v.1, u.2.1 - v.2.1, u.2.2 - v.2.2)

/-- Cross product of two vectors in `α³`. -/
def cross3 (u v : α × α × α) : α × α × α :=
  (u.2.1 * v.2.2 - u.2.2 * v.2.1,
   u.2.2 * v.1 - u.1 * v.2.2,
   u.1 * v.2.1 - u.2.1 * v.1)

/-- Dot product of two vectors in `α³`. -/
def dot3 (u v : α × α × α) : α :=
  u.1 * v.1 + u.2.1 * v.2.1 + u.2.2 * v.2.2

/-- Componentwise sum of two points. -/
def add3 (u v : α × α × α) : α × α × α :=
  (u.1 + v.1, u.2.1 + v.2.1, u.2.2 + v.2.2)

/-- A four-index face over the vertex list `vs` of a solid centred at the
origin is wound counter-clockwise as seen from outside iff at every corner
the cross product of the two incident edges (the face normal under the
standard interchange convention) has positive dot product with the direction
from the origin out to the face (here, the face's vertex sum). -/
def quadOutwardCCW (vs : List (α × α × α)) (face : List ℕ) : Prop :=
  match face with
  | [a, b, c, d] =>
    let A := vs.getD a (0, 0, 0)
    let B := vs.getD b (0, 0, 0)
    let C := vs.getD c (0, 0, 0)
    let D := vs.getD d (0, 0, 0)
    let out := add3 (add3 A B) (add3 C D)
    0 < dot3 (cross3 (sub3 B A) (sub3 C B)) out ∧
    0 < dot3 (cross3 (sub3 C B) (sub3 D C)) out ∧
    0 < dot3 (cross3 (sub3 D C) (sub3 A D)) out ∧
    0 < dot3 (cross3 (sub3 A D) (sub3 B A)) out
  | _ => False

end Winding

section TransformTheorems

variable {α : Type} [Field α]

/-- The code's rotation step is exactly the composition of the three
elementary rotations, X first, then Y, then Z (by let-reduction of the
sequential reassignments). -/
theorem rotatePoint_decomp (c s : α → α) (rot p : α × α × α) :
    rotatePoint c s rot p =
      rotZPt c s rot.2.2 (rotYPt c s rot.2.1 (rotXPt c s rot.1 p)) := rfl

/-- C1: for every node and every local-space vertex, the exported
world-space vertex equals the local point first scaled axis-wise by
`scale * 0.5`, then rotated by the three elementary rotations in the fixed
order X by `rotation[0]`, then Y by `rotation[1]`, then Z by `rotation[2]`
(each applied to the already-rotated point), then translated by straight
vector addition of `position`. -/
theorem exported_vertex_is_scale_rotXYZ_translate (c s : α → α)
    (n : SceneNode α) :
    addGeometryWorldVerts c s n =
      (localVerts n.type).map (fun p =>
        translatePt n.position
          (rotZPt c s n.rotation.2.2
            (rotYPt c s n.rotation.2.1
              (rotXPt c s n.rotation.1 (scaleHalfPt n.scale p))))) := by
  unfold addGeometryWorldVerts
  rw [List.map_map, List.map_map]
  rfl

/-- Undoing an X rotation with the negated angle recovers the point. -/
theorem rotXPt_neg_cancel (a : ℝ) (p : ℝ × ℝ × ℝ) :
    rotXPt Real.cos Real.sin (-a) (rotXPt Real.cos Real.sin a p) = p := by
  obtain ⟨x, y, z⟩ := p
  have h := Real.sin_sq_add_cos_sq a
  simp only [rotXPt, Real.cos_neg, Real.sin_neg, Prod.mk.injEq]
  refine ⟨trivial, ?_, ?_⟩
  · linear_combination y * h
  · linear_combination z * h

/-- Undoing a Y rotation with the negated angle recovers the point. -/
theorem rotYPt_neg_cancel (a : ℝ) (p : ℝ × ℝ × ℝ) :
    rotYPt Real.cos Real.sin (-a) (rotYPt Real.cos Real.sin a p) = p := by
  obtain ⟨x, y, z⟩ := p
  have h := Real.sin_sq_add_cos_sq a
  simp only [rotYPt, Real.cos_neg, Real.sin_neg, Prod.mk.injEq]
  refine ⟨?_, trivial, ?_⟩
  · linear_combination x * h
  · linear_combination z * h

/-- Undoing a Z rotation with the negated angle recovers the point. -/
theorem rotZPt_neg_cancel (a : ℝ) (p : ℝ × ℝ × ℝ) :
    rotZPt Real.cos Real.sin (-a) (rotZPt Real.cos Real.sin a p) = p := by
  obtain ⟨x, y, z⟩ := p
  have h := Real.sin_sq_add_cos_sq a
  simp only [rotZPt, Real.cos_neg, Real.sin_neg, Prod.mk.injEq]
  refine ⟨?_, ?_, trivial⟩
  · linear_combination x * h
  · linear_combination y * h

/-- C9: for every rotation vector and local point, applying the export
transform's rotation composition (X then Y then Z) and then the elementary
rotations with negated angles in reverse order (Z then Y then X) returns the
original point — an exact round-trip law over the reals. -/
theorem rotatePoint_roundtrip (rot p : ℝ × ℝ × ℝ) :
    rotXPt Real.cos Real.sin (-rot.1)
      (rotYPt Real.cos Real.sin (-rot.2.1)
        (rotZPt Real.cos Real.sin (-rot.2.2)
          (rotatePoint Real.cos Real.sin rot p))) = p := by
  rw [rotatePoint_decomp, rotZPt_neg_cancel, rotYPt_neg_cancel,
    rotXPt_neg_cancel]

end TransformTheorems

section TopologyTheorems

/-- C2: every node's synthesized local-space geometry is exactly one of two
topologies — the 4-vertex quad with 1 face when the type is `plane` or
`window`, and the 8 unit-cube corners with 6 faces for every other type of
the enumeration. -/
theorem localVerts_two_topologies {α : Type} [Field α] (t : GeometryType)
    (o : ℕ) :
    (localVerts (α := α) t =
        if t = GeometryType.plane ∨ t = GeometryType.window then
          [(-1, -1, 0), (1, -1, 0), (-1, 1, 0), (1, 1, 0)]
        else
          [(-1, -1, 1), (1, -1, 1), (-1, 1, 1), (1, 1, 1),
           (-1, -1, -1), (1, -1, -1), (-1, 1, -1), (1, 1, -1)]) ∧
      (faceIndexLists o (localVerts (α := α) t).length).length =
        if t = GeometryType.plane ∨ t = GeometryType.window then 1 else 6 := by
  cases t <;>
    simp [localVerts, isQuadType, quadVerts, cubeVerts, faceIndexLists]

/-- C7: each of the six quad faces emitted for a cube-topology node lists
its four vertex indices counter-clockwise as seen from outside the cube, so
every face normal points outward (checked at every corner of every face,
against the outward direction from the cube's centre). -/
theorem cube_faces_ccw_outward :
    ∀ f ∈ faceIndexLists 0 (cubeVerts (α := ℚ)).length,
      quadOutwardCCW (cubeVerts (α := ℚ)) f := by
  intro f hf
  have h8 : (cubeVerts (α := ℚ)).length = 8 := rfl
  rw [h8] at hf
  simp only [faceIndexLists, reduceIte] at hf
  fin_cases hf <;>
    norm_num [quadOutwardCCW, cubeVerts, dot3, cross3, sub3, add3,
      List.getD_cons_succ, List.getD_cons_zero]

/-- Witness for C7 at the first cube face. -/
theorem cube_faces_ccw_outward_witness :
    quadOutwardCCW (cubeVerts (α := ℚ)) [0, 1, 3, 2] :=
  cube_faces_ccw_outward [0, 1, 3, 2] (by norm_num [cubeVerts, faceIndexLists])

end TopologyTheorems

section CounterTheorems

variable {α : Type} [Field α]

/-- Number of quad-topology (`plane`/`window`) nodes in a list. -/
def quadCount (ns : List (SceneNode α)) : ℕ :=
  (ns.filter (fun n => isQuadType n.type)).length

/-- Number of cube-topology nodes in a list. -/
def cubeCount (ns : List (SceneNode α)) : ℕ :=
  (ns.filter (fun n => !isQuadType n.type)).length

/-- A node's world vertex list has 4 entries for quad topology and 8
otherwise. -/
theorem length_addGeometryWorldVerts (c s : α → α) (n : SceneNode α) :
    (addGeometryWorldVerts c s n).length =
      if isQuadType n.type then 4 else 8 := by
  cases h : isQuadType n.type <;>
    simp [addGeometryWorldVerts, localVerts, h, quadVerts, cubeVerts]

/-- One node advances the running vertex-index counter by exactly the vertex
count just emitted: 4 for quad topology, 8 for cube topology. -/
theorem nodeBlock_counter (c s : α → α) (fmt : α → String) (n : SceneNode α)
    (idx off : ℕ) :
    (nodeBlock c s fmt n idx off).2 =
      off + if isQuadType n.type then 4 else 8 := by
  unfold nodeBlock
  simp only [length_addGeometryWorldVerts]
  cases h : isQuadType n.type <;> simp [h]

/-- Threading the per-group loop from any starting offset adds `8` per cube
node and `4` per quad node. -/
theorem emitNodes_counter (c s : α → α) (fmt : α → String) :
    ∀ (ns : List (SceneNode α)) (idx off : ℕ),
      (emitNodes c s fmt ns idx off).2 =
        off + 8 * cubeCount ns + 4 * quadCount ns := by
  intro ns
  induction ns with
  | nil => intro idx off; simp [emitNodes, cubeCount, quadCount]
  | cons n ns ih =>
    intro idx off
    simp only [emitNodes]
    rw [ih, nodeBlock_counter]
    cases h : isQuadType n.type <;>
      simp [cubeCount, quadCount, List.filter_cons, h] <;> omega

/-- C4: per group, the running vertex-index counter starts at 1 (as in
`groupDoc`), advances by the vertex count emitted for each node, and after
processing a group containing `N` cube-topology nodes and `M` quad-topology
nodes equals `1 + 8N + 4M`. -/
theorem group_counter_final (c s : α → α) (fmt : α → String)
    (ns : List (SceneNode α)) (idx : ℕ) :
    (emitNodes c s fmt ns idx 1).2 =
      1 + 8 * cubeCount ns + 4 * quadCount ns :=
  emitNodes_counter c s fmt ns idx 1

/-- C6: when the node list left after optional group filtering is empty, the
export is a silent no-op — no documents are produced at all. -/
theorem export_empty_noop (c s : α → α) (fmt : α → String)
    (nodes : List (SceneNode α)) (targetGroup : Option String)
    (h : nodesToExport nodes targetGroup = []) :
    handleExport c s fmt nodes targetGroup = none := by
  unfold handleExport
  rw [h]
  simp

/-- C10: the per-node block of exported text depends only on the node's
name, its index in the group's node list, the running vertex offset at that
point, its material color, whether its type is quad topology
(`plane`/`window`) or not, and its position/rotation/scale vectors — two
nodes agreeing on those (in particular, differing only in `segments`,
`shapePath`, `id`, or any material field other than `color`) yield identical
export output. -/
theorem nodeBlock_depends_only_on_exported_fields (c s : α → α)
    (fmt : α → String) (n1 n2 : SceneNode α) (idx off : ℕ)
    (hname : n1.name = n2.name)
    (hcolor : n1.material.color = n2.material.color)
    (htype : isQuadType n1.type = isQuadType n2.type)
    (hpos : n1.position = n2.position)
    (hrot : n1.rotation = n2.rotation)
    (hscl : n1.scale = n2.scale) :
    nodeBlock c s fmt n1 idx off = nodeBlock c s fmt n2 idx off := by
  unfold nodeBlock addGeometryWorldVerts usemtlLine localVerts
  rw [hname, hcolor, htype, hpos, hrot, hscl]

end CounterTheorems

section FilterTheorems

set_option linter.unusedSectionVars false

variable {α : Type} [Field α]

/-- Looking a key up in an association list built by tagging each key of
`ks` with `f` finds `f g` exactly when `g` occurs in `ks`. -/
theorem lookup_keyMap (f : String → String) :
    ∀ (ks : List String) (g : String),
      (ks.map (fun k => (k, f k))).lookup g =
        if g ∈ ks then some (f g) else none := by
  intro ks
  induction ks with
  | nil => intro g; simp [List.lookup]
  | cons k ks ih =>
    intro g
    by_cases hg : g = k
    · subst hg
      simp [List.lookup]
    · have hbeq : (g == k) = false := beq_false_of_ne hg
      simp [List.lookup, hbeq, ih, hg]

/-- Membership in the `groupedNodes` insertion-ordered key fold, for an
arbitrary accumulator. -/
theorem mem_groupKeys_foldl :
    ∀ (ns : List (SceneNode α)) (acc : List String) (g : String),
      (g ∈ ns.foldl
          (fun ks n =>
            if normGroup n.group ∈ ks then ks else ks ++ [normGroup n.group])
          acc) ↔
        g ∈ acc ∨ ∃ n ∈ ns, normGroup n.group = g := by
  intro ns
  induction ns with
  | nil => intro acc g; simp
  | cons n ns ih =>
    intro acc g
    simp only [List.foldl_cons]
    rw [ih]
    by_cases h : normGroup n.group ∈ acc
    · simp only [h, if_true]
      constructor
      · rintro (h1 | h2)
        · exact Or.inl h1
        · exact Or.inr ⟨h2.choose, ⟨List.mem_cons_of_mem _ h2.choose_spec.1,
            h2.choose_spec.2⟩⟩
      · rintro (h1 | ⟨m, hm, rfl⟩)
        · exact Or.inl h1
        · rcases List.mem_cons.mp hm with rfl | hm'
          · exact Or.inl h
          · exact Or.inr ⟨m, hm', rfl⟩
    · simp only [h, if_false, List.mem_append, List.mem_singleton]
      constructor
      · rintro (⟨h1 | h1⟩ | ⟨m, hm, rfl⟩)
        · exact Or.inl h1
        · exact Or.inr ⟨n, List.mem_cons_self n ns, h1.symm⟩
        · exact Or.inr ⟨m, List.mem_cons_of_mem _ hm, rfl⟩
      · rintro (h1 | ⟨m, hm, rfl⟩)
        · exact Or.inl (Or.inl h1)
        · rcases List.mem_cons.mp hm with rfl | hm'
          · exact Or.inl (Or.inr rfl)
          · exact Or.inr ⟨m, hm', rfl⟩

/-- A group name is a key of the export partition iff some node normalizes
to it. -/
theorem mem_groupKeys (ns : List (SceneNode α)) (g : String) :
    g ∈ groupKeys ns ↔ ∃ n ∈ ns, normGroup n.group = g := by
  unfold groupKeys
  rw [mem_groupKeys_foldl]
  simp

/-- Once the accumulator is exactly `[G]` and every remaining node
normalizes to `G`, the key fold is stationary. -/
theorem groupKeys_foldl_const (G : String) :
    ∀ (ns : List (SceneNode α)), (∀ n ∈ ns, normGroup n.group = G) →
      ns.foldl
        (fun ks n =>
          if normGroup n.group ∈ ks then ks else ks ++ [normGroup n.group])
        [G] = [G] := by
  intro ns
  induction ns with
  | nil => intro _; rfl
  | cons n ns ih =>
    intro h
    have hn : normGroup n.group = G := h n (List.mem_cons_self n ns)
    simp only [List.foldl_cons, hn, List.mem_singleton, if_true]
    exact ih (fun m hm => h m (List.mem_cons_of_mem _ hm))

/-- A nonempty node list all of whose members normalize to `G` partitions
into the single key `[G]`. -/
theorem groupKeys_const {ns : List (SceneNode α)} {G : String}
    (hne : ns ≠ []) (hall : ∀ n ∈ ns, normGroup n.group = G) :
    groupKeys ns = [G] := by
  match ns, hne with
  | n :: ns, _ =>
    unfold groupKeys
    have hn : normGroup n.group = G := hall n (List.mem_cons_self n ns)
    simp only [List.foldl_cons, List.not_mem_nil, if_false, List.nil_append, hn]
    exact groupKeys_foldl_const G ns
      (fun m hm => hall m (List.mem_cons_of_mem _ hm))

/-- C3: for every scene-node list and every (non-falsy) group name `G`,
exporting with group filter `G` yields for `G` exactly the document the full
unfiltered export produces for `G` — same vertex/face lines, indices local
to the document. -/
theorem export_filter_locality (c s : α → α) (fmt : α → String)
    (nodes : List (SceneNode α)) (G : String) (hG : G ≠ "") :
    docFor c s fmt nodes (some G) G = docFor c s fmt nodes none G := by
  classical
  set p : SceneNode α → Bool := fun n => normGroup n.group == G with hp
  have hfilter : nodesToExport nodes (some G) = nodes.filter p := by
    unfold nodesToExport
    simp [hG]
  unfold docFor handleExport
  rw [hfilter]
  by_cases hns : (nodes.filter p).length = 0
  · -- the filtered list is empty: both sides yield no document for G
    rw [if_pos hns]
    have hnog : ¬ ∃ n ∈ nodes, normGroup n.group = G := by
      rintro ⟨n, hn, hg⟩
      have : n ∈ nodes.filter p := by
        rw [List.mem_filter]
        exact ⟨hn, by simp [hp, hg]⟩
      rw [List.length_eq_zero] at hns
      simp [hns] at this
    by_cases hall : nodes.length = 0
    · simp only [nodesToExport, hall, if_true]
    · simp only [nodesToExport, hall, if_false]
      rw [lookup_keyMap]
      rw [if_neg (fun hmem => hnog ((mem_groupKeys nodes G).mp hmem))]
  · -- the filtered list is nonempty
    rw [if_neg hns]
    have hne : nodes.filter p ≠ [] := by
      intro h
      rw [h] at hns
      exact hns rfl
    have hall : ∀ n ∈ nodes.filter p, normGroup n.group = G := by
      intro n hn
      have := (List.mem_filter.mp hn).2
      simpa [hp] using this
    have hkeys : groupKeys (nodes.filter p) = [G] := groupKeys_const hne hall
    have hidem : (nodes.filter p).filter p = nodes.filter p :=
      List.filter_eq_self.mpr (fun n hn => (List.mem_filter.mp hn).2)
    have hGmem : G ∈ groupKeys nodes := by
      rw [mem_groupKeys]
      match h : nodes.filter p, hne with
      | n :: _, _ =>
        exact ⟨n, (List.mem_filter.mp (h ▸ List.mem_cons_self n _)).1,
          hall n (h ▸ List.mem_cons_self n _)⟩
    have hnodes : ¬ nodes.length = 0 := by
      intro h
      rw [List.length_eq_zero] at h
      subst h
      simp at hne
    simp only [nodesToExport, hnodes, if_false]
    rw [hkeys]
    conv_rhs => rw [lookup_keyMap]
    rw [if_pos hGmem]
    simp only [List.map_cons, List.map_nil, List.lookup, beq_self_eq_true]
    rw [← hp, hidem]

end FilterTheorems

section IngestionTheorems

set_option linter.unusedSectionVars false

variable {α : Type} [Field α]

/-- C5: whenever the remote payload is absent, unparseable, or lacks a
`nodes` array, ingestion returns the fixed user-facing failure message with
no scene data (the function is total, so nothing escapes uncaught), and
feeding the response through the message handler leaves the prior scene
graph unchanged. -/
theorem ingestion_failure_leaves_scene (suffix : ℕ → String)
    (scene : SceneData α) (p : GenPayload α)
    (h : p = GenPayload.absent ∨ p = GenPayload.unparseable ∨
      ∃ r e a, p = GenPayload.parsed none r e a) :
    (generateSceneFromPrompt suffix p).data = none ∧
    (generateSceneFromPrompt suffix p).text = coreErrorText ∧
    (handleSendMessageUpdate scene (generateSceneFromPrompt suffix p)).1 =
      scene := by
  rcases h with rfl | rfl | ⟨r, e, a, rfl⟩ <;>
    simp [generateSceneFromPrompt, handleSendMessageUpdate]

end IngestionTheorems

section MaterialTheorems

set_option linter.unusedSectionVars false

variable {α : Type} [Field α]

/-- Modelled from the spec's words for the refinement comparison of the
material identifier: replace only a LEADING `#` marker by `rep`, leaving any
other color string unchanged. -/
def leadingHashReplace (str rep : String) : String :=
  match str.data with
  | '#' :: rest => rep ++ ⟨rest⟩
  | _ => str

/-- A `#`-free character list is untouched by the first-occurrence
replacement. -/
theorem replaceFirstHashAux_of_not_mem (rep : List Char) :
    ∀ l : List Char, '#' ∉ l → replaceFirstHashAux rep l = l := by
  intro l
  induction l with
  | nil => intro _; rfl
  | cons ch cs ih =>
    intro h
    have hch : ¬ ch = '#' := fun hc => h (hc ▸ List.mem_cons_self ch cs)
    simp only [replaceFirstHashAux, if_neg hch]
    rw [ih (fun hc => h (List.mem_cons_of_mem _ hc))]

/-- C8 (amended): the emitted material-reference line is `usemtl ` followed
by the node's color with the FIRST occurrence of `#` — wherever it sits —
replaced by `Mat_` (JavaScript `replace` semantics); in particular a leading
`#` marker becomes the `Mat_` prefix, and a `#`-free color passes through
unchanged. -/
theorem usemtl_first_hash_semantics (n : SceneNode α) :
    usemtlLine n = "usemtl " ++ replaceFirstHash n.material.color "Mat_" ++
      "\n" ∧
    (∀ rest : List Char, n.material.color.data = '#' :: rest →
      (replaceFirstHash n.material.color "Mat_").data = "Mat_".data ++ rest) ∧
    ('#' ∉ n.material.color.data →
      replaceFirstHash n.material.color "Mat_" = n.material.color) := by
  refine ⟨rfl, ?_, ?_⟩
  · intro rest h
    unfold replaceFirstHash
    rw [h]
    simp [replaceFirstHashAux]
  · intro h
    unfold replaceFirstHash
    rw [replaceFirstHashAux_of_not_mem _ _ h]

end MaterialTheorems

section ConcreteWitnesses

/-- Concrete stand-in for `Math.cos` in witnesses. -/
def cq : ℚ → ℚ := fun _ => 1

/-- Concrete stand-in for `Math.sin` in witnesses. -/
def sq : ℚ → ℚ := fun _ => 0

/-- Concrete stand-in for the `toFixed(4)` formatter in witnesses. -/
def fmtq : ℚ → String := fun _ => "0.0000"

/-- A concrete material used by witness nodes. -/
def matRed : PBRMaterial ℚ :=
  { color := "#ff0000", roughness := 1/2, metalness := 0, opacity := none,
    transparent := none, emissive := none, emissiveIntensity := none,
    wireframe := none }

/-- A concrete cube node in group `G`. -/
def nodeG : SceneNode ℚ :=
  { id := "a1", name := "Crate", group := "G", type := GeometryType.box,
    position := (0, 0, 0), rotation := (0, 0, 0), scale := (1, 1, 1),
    segments := none, material := matRed, shapePath := none }

/-- Like `nodeG`, but with a different `id`, `segments`, `shapePath`, and
different material fields other than `color`. -/
def nodeG' : SceneNode ℚ :=
  { id := "b2", name := "Crate", group := "G", type := GeometryType.box,
    position := (0, 0, 0), rotation := (0, 0, 0), scale := (1, 1, 1),
    segments := some 64,
    material :=
      { color := "#ff0000", roughness := 1, metalness := 1, opacity := some 1,
        transparent := some true, emissive := some "#000000",
        emissiveIntensity := some 2, wireframe := some true },
    shapePath := some [(0, 0), (1, 0), (1, 1)] }

/-- A node whose color contains `#` in a non-leading spot. -/
def nodeMidHash : SceneNode ℚ :=
  { nodeG with material := { matRed with color := "a#b" } }

/-- Witness for C3: filtering by a concrete group reproduces the full
export's document for that group. -/
theorem export_filter_locality_witness :
    ("G" : String) ≠ "" ∧
    docFor cq sq fmtq [nodeG] (some "G") "G" =
      docFor cq sq fmtq [nodeG] none "G" :=
  ⟨by decide, export_filter_locality cq sq fmtq [nodeG] "G" (by decide)⟩

/-- Witness for C6 at the empty scene. -/
theorem export_empty_noop_witness :
    nodesToExport ([] : List (SceneNode ℚ)) none = [] ∧
    handleExport cq sq fmtq ([] : List (SceneNode ℚ)) none = none :=
  ⟨rfl, export_empty_noop cq sq fmtq [] none rfl⟩

/-- Witness for C10: two concrete nodes differing only in `id`, `segments`,
`shapePath` and non-color material fields produce identical export blocks. -/
theorem nodeBlock_depends_only_witness :
    nodeBlock cq sq fmtq nodeG 0 1 = nodeBlock cq sq fmtq nodeG' 0 1 :=
  nodeBlock_depends_only_on_exported_fields cq sq fmtq nodeG nodeG' 0 1
    rfl rfl rfl rfl rfl rfl

/-- A concrete prior scene for the C5 witness. -/
def sceneQ : SceneData ℚ := ⟨[nodeG], "city", 1/2⟩

/-- Witness for C5 at an absent payload. -/
theorem ingestion_failure_witness :
    (generateSceneFromPrompt (fun _ => "x") (GenPayload.absent (α := ℚ))).data
        = none ∧
    (generateSceneFromPrompt (fun _ => "x")
        (GenPayload.absent (α := ℚ))).text = coreErrorText ∧
    (handleSendMessageUpdate sceneQ
        (generateSceneFromPrompt (fun _ => "x")
          (GenPayload.absent (α := ℚ)))).1 = sceneQ :=
  ingestion_failure_leaves_scene (fun _ => "x") sceneQ GenPayload.absent
    (Or.inl rfl)

/-- Counterexample for C8 as stated: for the color `"a#b"` the emitted line
replaces the non-leading `#`, so it differs from a leading-only
substitution. -/
theorem usemtl_not_leading_only :
    usemtlLine nodeMidHash ≠
      "usemtl " ++ leadingHashReplace nodeMidHash.material.color "Mat_" ++
        "\n" := by decide

/-- Witness for the amended C8 at a node with a leading `#` color. -/
theorem usemtl_first_hash_semantics_witness :
    (replaceFirstHash nodeG.material.color "Mat_").data =
      "Mat_".data ++ "ff0000".data :=
  (usemtl_first_hash_semantics nodeG).2.1 "ff0000".data (by decide)

end ConcreteWitnesses

end GenBlender
